import Mathlib

/-!
Verification development for the `lightsailctl` image-push core
(`internal/cs/pushimage.go` and `internal/cs/dockerengine.go`).

The development shallowly embeds the two core pieces:

* the status-stream filter `scanStatuses` together with the digest
  extraction paths (`digestStatusRE` over the status text, and
  `extractDigestFromAux` over the auxiliary payload consumed by the
  external stream renderer `DisplayJSONMessagesStream`);
* the push orchestration `PushImage` over the five injectable
  capabilities (registry login, tag, untag, push, register), with an
  explicit call trace standing in for the side effects of the Go code.

Strings are modelled as Lean `String`; the streamed JSON protocol is
modelled after decoding: one `Msg` per decodable record, a decode
failure marker otherwise.
-/

namespace Lightsailctl

/-! ## String utilities

`beginsWith needle hay` is true when `needle` is a leading segment of
`hay`; `strContains hay sub` models Go `strings.Contains(hay, sub)`.
-/

def beginsWith : List Char → List Char → Bool
  | [], _ => true
  | _ :: _, [] => false
  | n :: ns, h :: hs => n = h && beginsWith ns hs

def containsChars (needle : List Char) : List Char → Bool
  | [] => beginsWith needle []
  | h :: hs => beginsWith needle (h :: hs) || containsChars needle hs

def strContains (hay sub : String) : Bool :=
  containsChars sub.data hay.data

/-! ## The digest pattern of newer Docker Engines

Go: `digestStatusRE = regexp.MustCompile("digest: (sha256:[a-f0-9]{64})")`
used via `FindStringSubmatch`, i.e. leftmost match, capture group
returned. The character class is modelled by `isDigestChar`; the
leftmost-match search by `findDigestChars`.
-/

def isDigestChar (c : Char) : Bool :=
  (('a' ≤ c) && (c ≤ 'f')) || (('0' ≤ c) && (c ≤ '9'))

def stripLit : List Char → List Char → Option (List Char)
  | [], cs => some cs
  | _ :: _, [] => none
  | l :: ls, c :: cs => if c = l then stripLit ls cs else none

def takeHex : Nat → List Char → Option (List Char × List Char)
  | 0, cs => some ([], cs)
  | _ + 1, [] => none
  | n + 1, c :: cs =>
    if isDigestChar c then
      match takeHex n cs with
      | none => none
      | some p => some (c :: p.1, p.2)
    else none

def digestAt (cs : List Char) : Option String :=
  match stripLit "digest: sha256:".data cs with
  | none => none
  | some rest =>
    match takeHex 64 rest with
    | none => none
    | some p => some ("sha256:" ++ String.mk p.1)

def findDigestChars : List Char → Option String
  | [] => none
  | c :: cs =>
    match digestAt (c :: cs) with
    | some d => some d
    | none => findDigestChars cs

def findDigest (s : String) : Option String :=
  findDigestChars s.data

/-! ## The platform-mismatch pattern

Go: `platformErrorRE(platform)` builds
`does not (provide|match) the specified platform \(os/arch\)` and is
used via `MatchString`; the alternation of two literals makes this a
containment test for either literal.
-/

def platformErrorPatternMatches (os arch s : String) : Bool :=
  strContains s ("does not provide the specified platform (" ++ os ++ "/" ++ arch ++ ")")
    || strContains s ("does not match the specified platform (" ++ os ++ "/" ++ arch ++ ")")

/-! ## Status records

One decoded `jsonmessage.JSONMessage` as far as the core inspects it:
its `Status` text, its optional `Aux` payload, and its optional
per-record `Error`. An `Aux` payload is modelled after
`json.Unmarshal(*m.Aux, &struct{ Digest string })`: either the
unmarshal fails, or it yields the `Digest` field value (which is the
empty string when the field is absent).
-/

inductive AuxVal where
  | undecodable
  | digestField (d : String)
  deriving DecidableEq, Repr

structure Msg where
  status : String
  aux : Option AuxVal := none
  errorMsg : Option String := none
  deriving DecidableEq, Repr

/-- One element of the raw byte stream after running the JSON decoder:
either a decodable record or a decode failure. -/
abbrev RawRecord := Except Unit Msg

/-! ## The filtering pass `scanStatuses`

Go loop body, in order: decode (break on failure), record a
`digestStatusRE` match into the side output, drop the record when its
status text contains any of the skip substrings, otherwise forward it.
-/

def scanStep (skips : List String) (st : String × List Msg) (m : Msg) : String × List Msg :=
  let d : String :=
    match findDigest m.status with
    | some d => d
    | none => st.1
  if skips.any (fun skip => strContains m.status skip) then
    (d, st.2)
  else
    (d, st.2 ++ [m])

def scanLoop (skips : List String) : List RawRecord → String × List Msg → String × List Msg
  | [], st => st
  | .error _ :: _, st => st
  | .ok m :: rest, st => scanLoop skips rest (scanStep skips st m)

/-- The filtering pass: side-output digest (initially empty) and the
forwarded record sequence, in order. -/
def scanStatuses (stream : List RawRecord) (skips : List String) : String × List Msg :=
  scanLoop skips stream ("", [])

/-- The decodable prefix of the raw stream: everything before the first
record the JSON decoder rejects. -/
def decodablePrefix : List RawRecord → List Msg
  | [] => []
  | .error _ :: _ => []
  | .ok m :: rest => m :: decodablePrefix rest

/-! ## The rendering side and the auxiliary digest path

`DisplayJSONMessagesStream` (external `jsonmessage` package, consumed
over the filtered stream): for each forwarded record, a record with an
`Aux` payload is handed to the callback and skipped from display; a
record without `Aux` but with a per-record `Error` terminates the
stream with that structured error; anything else is displayed and the
loop continues; end-of-stream returns no error. The callback is
`extractDigestFromAux`: a decodable payload overwrites the aux-side
digest register, an undecodable one is logged and skipped.
-/

def extractDigestFromAux (cur : String) : AuxVal → String
  | .undecodable => cur
  | .digestField d => d

def displayStream (digestFromAux : String) : List Msg → Except String String
  | [] => .ok digestFromAux
  | m :: rest =>
    match m.aux with
    | some a => displayStream (extractDigestFromAux digestFromAux a) rest
    | none =>
      match m.errorMsg with
      | some em => .error em
      | none => displayStream digestFromAux rest

/-! ## `DockerEngine.PushImage`

`RemoteImage` embeds the registry auth details and the generated tag;
`Ref()` is `ServerAddress + ":" + Tag`.
-/

structure AuthConfig where
  username : String
  password : String
  serverAddress : String
  deriving DecidableEq, Repr

structure RemoteImage where
  authConfig : AuthConfig
  tag : String
  deriving DecidableEq, Repr

def RemoteImage.ref (r : RemoteImage) : String :=
  r.authConfig.serverAddress ++ ":" ++ r.tag

/-- The error kinds `DockerEngine.PushImage` can produce, with the
cause a platform error wraps (`Unwrap`): the raw `ImagePush` call error
or the structured stream error. -/
inductive PushCause where
  | fromCall (msg : String)
  | fromStream (msg : String)
  deriving DecidableEq, Repr

inductive EnginePushErr where
  | callFailure (msg : String)
  | platformMismatch (os arch : String) (cause : PushCause)
  | jsonError (msg : String)
  | missingDigest
  deriving DecidableEq, Repr

/-- Go `(*platformError).Error()`:
`image does not provide %s/%s platform`. -/
def platformErrorMessage (os arch : String) : String :=
  "image does not provide " ++ os ++ "/" ++ arch ++ " platform"

/-- The outcome of the `ImagePush` call issued to the local engine: an
error message, or the raw status stream it returns. -/
abbrev ImagePushOutcome := Except String (List RawRecord)

/-- `DockerEngine.PushImage`: issue the `ImagePush` call (for the fixed
platform `linux/amd64`), then run the filtered stream through the
renderer, then pick the digest. Error text matching the platform
pattern, at either the call or the stream level, is wrapped as a
platform-mismatch error. -/
def enginePushImage (outcome : ImagePushOutcome) (remoteImage : RemoteImage) :
    Except EnginePushErr String :=
  match outcome with
  | .error emsg =>
    if platformErrorPatternMatches "linux" "amd64" emsg then
      .error (.platformMismatch "linux" "amd64" (.fromCall emsg))
    else
      .error (.callFailure emsg)
  | .ok stream =>
    let scanned := scanStatuses stream [remoteImage.authConfig.serverAddress, remoteImage.tag]
    let digestFromStatus := scanned.1
    match displayStream "" scanned.2 with
    | .error jemsg =>
      if platformErrorPatternMatches "linux" "amd64" jemsg then
        .error (.platformMismatch "linux" "amd64" (.fromStream jemsg))
      else
        .error (.jsonError jemsg)
    | .ok digestFromAux =>
      if digestFromStatus ≠ "" then
        .ok digestFromStatus
      else if digestFromAux ≠ "" then
        .ok digestFromAux
      else
        .error .missingDigest

/-! ## `generateUniqueTag`

Go builds the tag as `fmt.Sprintf("%v-%s", now.UnixNano(), randomName13())`,
where `randomName13` reads 8 bytes from the random source and encodes
them with `base32.NewEncoding("0123456789abcdefghijklmnopqrstuv").WithPadding(NoPadding)`:
the bytes are read as a most-significant-bit-first bitstream, chopped
into 5-bit symbols, the final partial symbol zero-padded on the right.
-/

def b32Alphabet : List Char :=
  "0123456789abcdefghijklmnopqrstuv".data

def byteToBits (b : Nat) : List Bool :=
  [b.testBit 7, b.testBit 6, b.testBit 5, b.testBit 4,
   b.testBit 3, b.testBit 2, b.testBit 1, b.testBit 0]

def bitsToNat (bits : List Bool) : Nat :=
  bits.foldl (fun a b => 2 * a + (if b then 1 else 0)) 0

def chunk5 : List Bool → List (List Bool)
  | [] => []
  | [b1] => [[b1, false, false, false, false]]
  | [b1, b2] => [[b1, b2, false, false, false]]
  | [b1, b2, b3] => [[b1, b2, b3, false, false]]
  | [b1, b2, b3, b4] => [[b1, b2, b3, b4, false]]
  | b1 :: b2 :: b3 :: b4 :: b5 :: rest => [b1, b2, b3, b4, b5] :: chunk5 rest

def b32EncodeToString (bytes : List Nat) : String :=
  String.mk ((chunk5 (bytes.flatMap byteToBits)).map
    (fun g => b32Alphabet.getD (bitsToNat g) '0'))

/-- `randomName13`: read exactly 8 bytes from the random source and
base-32 encode them. -/
def randomName13 (rngBytes : List Nat) : String :=
  b32EncodeToString (rngBytes.take 8)

/-- `generateUniqueTag` with the injected time source (nanosecond Unix
timestamp) and random source made explicit. -/
def generateUniqueTag (unixNano : Int) (rngBytes : List Nat) : String :=
  toString unixNano ++ "-" ++ randomName13 rngBytes

/-! ## The push orchestration `PushImage` (`pushimage.go`)

The five capabilities are injected as pure outcomes; a call trace of
`CallEvent`s stands in for the side effects, one event per capability
invocation in the order the Go code issues them. The deferred
`tryUntagImage` is the last event whenever the tag step succeeded; its
error is logged and discarded, never propagated.
-/

structure PushImageInput where
  service : String
  image : String
  label : String
  deriving DecidableEq, Repr

/-- The `CreateContainerServiceRegistryLogin` output fields the core
reads. -/
structure RegistryLogin where
  username : String
  password : String
  registry : String
  deriving DecidableEq, Repr

/-- The `RegisterContainerImage` output fields the core reads
(`ContainerImage.Digest` and `ContainerImage.Image`). -/
structure RegisteredImage where
  digest : String
  image : String
  deriving DecidableEq, Repr

inductive CallEvent where
  | createLogin
  | tagImage (source target : String)
  | untagImage (image : String)
  | pushImage (ref : String)
  | registerImage (service lbl digest : String)
  deriving DecidableEq, Repr

/-- The injectable capability set (`LightsailImageOperator` plus
`ImageOperator`), with outcomes fixed per argument. -/
structure Caps (E : Type) where
  createLogin : Except E RegistryLogin
  tagImage : String → String → Except E Unit
  untagImage : String → Except E Unit
  pushImage : RemoteImage → Except E String
  registerImage : String → String → String → Except E RegisteredImage

/-- `getServiceRegistryAuth`: wrap the login output, appending the
fixed staging-repository suffix to the registry address. -/
def getServiceRegistryAuth (login : RegistryLogin) : AuthConfig :=
  { username := login.username
    password := login.password
    serverAddress := login.registry ++ "/sr" }

/-- The remote reference a given login, time and randomness lead to:
the address `PushImage` passes to tag, push and untag. -/
def remoteRefFor (login : RegistryLogin) (unixNano : Int) (rngBytes : List Nat) : String :=
  RemoteImage.ref
    { authConfig := getServiceRegistryAuth login
      tag := generateUniqueTag unixNano rngBytes }

/-- `PushImage` (`pushimage.go`): login, build the remote image with a
fresh unique tag, tag, defer the best-effort untag, push, register.
Returns the registration output (`nil` error in Go means the printed
confirmation) paired with the trace of capability calls. -/
def pushImage {E : Type} (inp : PushImageInput) (unixNano : Int) (rngBytes : List Nat)
    (caps : Caps E) : Except E RegisteredImage × List CallEvent :=
  match caps.createLogin with
  | .error e => (.error e, [CallEvent.createLogin])
  | .ok login =>
    let remoteImage : RemoteImage :=
      { authConfig := getServiceRegistryAuth login
        tag := generateUniqueTag unixNano rngBytes }
    match caps.tagImage inp.image remoteImage.ref with
    | .error e => (.error e, [CallEvent.createLogin, CallEvent.tagImage inp.image remoteImage.ref])
    | .ok _ =>
      let body : Except E RegisteredImage × List CallEvent :=
        match caps.pushImage remoteImage with
        | .error e => (.error e, [CallEvent.pushImage remoteImage.ref])
        | .ok digest =>
          match caps.registerImage inp.service inp.label digest with
          | .error e =>
            (.error e,
             [CallEvent.pushImage remoteImage.ref,
              CallEvent.registerImage inp.service inp.label digest])
          | .ok registered =>
            (.ok registered,
             [CallEvent.pushImage remoteImage.ref,
              CallEvent.registerImage inp.service inp.label digest])
      let _untagOutcome := caps.untagImage remoteImage.ref
      (body.1,
       [CallEvent.createLogin, CallEvent.tagImage inp.image remoteImage.ref]
         ++ body.2 ++ [CallEvent.untagImage remoteImage.ref])

def CallEvent.isUntag : CallEvent → Bool
  | .untagImage _ => true
  | _ => false

def CallEvent.isRegister : CallEvent → Bool
  | .registerImage _ _ _ => true
  | _ => false

def CallEvent.isPush : CallEvent → Bool
  | .pushImage _ => true
  | _ => false

/-! ## Helper lemmas about the filtering pass -/

/-- A record survives the suppression check when its status text
contains none of the skip substrings. -/
def statusKept (skips : List String) (m : Msg) : Bool :=
  !(skips.any fun skip => strContains m.status skip)

/-- The digest found by the status-text path of one record, as an
option. -/
def statusDigest? (m : Msg) : Option String :=
  findDigest m.status

/-- The digest the auxiliary path of one record would report, as an
option. -/
def auxDigest? (m : Msg) : Option String :=
  match m.aux with
  | some (.digestField d) => some d
  | _ => none

theorem scanStep_fst (skips : List String) (st : String × List Msg) (m : Msg) :
    (scanStep skips st m).1 = (findDigest m.status).getD st.1 := by
  unfold scanStep
  cases h : findDigest m.status <;>
    simp [h] <;> split <;> rfl

theorem scanStep_snd (skips : List String) (st : String × List Msg) (m : Msg) :
    (scanStep skips st m).2 = if statusKept skips m then st.2 ++ [m] else st.2 := by
  unfold scanStep statusKept
  cases h : (skips.any fun skip => strContains m.status skip) <;>
    cases hf : findDigest m.status <;> simp [h, hf]

theorem scanLoop_eq_foldl (skips : List String) (stream : List RawRecord)
    (st : String × List Msg) :
    scanLoop skips stream st = (decodablePrefix stream).foldl (scanStep skips) st := by
  induction stream generalizing st with
  | nil => rfl
  | cons r rest ih =>
    cases r with
    | error e => rfl
    | ok m => simp [scanLoop, decodablePrefix, List.foldl_cons, ih]

theorem decodablePrefix_map_ok (msgs : List Msg) :
    decodablePrefix (msgs.map Except.ok) = msgs := by
  induction msgs with
  | nil => rfl
  | cons m rest ih => simp [decodablePrefix, ih]

theorem foldl_scanStep_snd (skips : List String) (msgs : List Msg) (d : String)
    (acc : List Msg) :
    (msgs.foldl (scanStep skips) (d, acc)).2 = acc ++ msgs.filter (statusKept skips) := by
  induction msgs generalizing d acc with
  | nil => simp
  | cons m rest ih =>
    rw [List.foldl_cons]
    have hstep : scanStep skips (d, acc) m =
        ((scanStep skips (d, acc) m).1, (scanStep skips (d, acc) m).2) := rfl
    rw [hstep, scanStep_snd, ih]
    by_cases hk : statusKept skips m = true <;> simp [hk, List.filter_cons]

theorem foldl_scanStep_fst (skips : List String) (msgs : List Msg) (d : String)
    (acc : List Msg) :
    (msgs.foldl (scanStep skips) (d, acc)).1
      = (msgs.reverse.findSome? statusDigest?).getD d := by
  induction msgs generalizing d acc with
  | nil => simp
  | cons m rest ih =>
    rw [List.foldl_cons]
    have hpair : scanStep skips (d, acc) m =
        ((scanStep skips (d, acc) m).1, (scanStep skips (d, acc) m).2) := rfl
    rw [hpair, ih, scanStep_fst, List.reverse_cons, List.findSome?_append]
    have : ∀ o₁ o₂ : Option String, ∀ x : String,
        (o₁.or o₂).getD x = o₁.getD (o₂.getD x) := by
      intro o₁ o₂ x
      cases o₁ <;> simp [Option.or]
    rw [this]
    have hm : [m].findSome? statusDigest? = statusDigest? m := by
      cases h : statusDigest? m <;> simp [List.findSome?, h]
    rw [hm]
    rfl

theorem scanStatuses_snd (stream : List RawRecord) (skips : List String) :
    (scanStatuses stream skips).2 = (decodablePrefix stream).filter (statusKept skips) := by
  unfold scanStatuses
  rw [scanLoop_eq_foldl]
  exact foldl_scanStep_snd skips (decodablePrefix stream) "" []

theorem scanStatuses_fst (stream : List RawRecord) (skips : List String) :
    (scanStatuses stream skips).1
      = (((decodablePrefix stream).reverse.findSome? statusDigest?).getD "") := by
  unfold scanStatuses
  rw [scanLoop_eq_foldl]
  exact foldl_scanStep_fst skips (decodablePrefix stream) "" []

theorem decodablePrefix_ok_append (xs : List Msg) (tail : List RawRecord) :
    decodablePrefix (xs.map Except.ok ++ tail) = xs ++ decodablePrefix tail := by
  induction xs with
  | nil => rfl
  | cons m tl ih => simp [decodablePrefix, ih]

theorem getD_mem {l : List Char} {d : Char} (n : Nat) (hd : d ∈ l) : l.getD n d ∈ l := by
  rcases Nat.lt_or_ge n l.length with h | h
  · rw [List.getD_eq_getElem l d h]
    exact List.getElem_mem h
  · rw [List.getD_eq_default l d h]
    exact hd

theorem displayStream_ok (msgs : List Msg) (a : String)
    (hclean : ∀ m ∈ msgs, m.errorMsg = none) :
    displayStream a msgs = .ok ((msgs.reverse.findSome? auxDigest?).getD a) := by
  induction msgs generalizing a with
  | nil => simp [displayStream]
  | cons m rest ih =>
    have hrest : ∀ m' ∈ rest, m'.errorMsg = none := fun m' hm' =>
      hclean m' (List.mem_cons_of_mem _ hm')
    have hor : ∀ o₁ o₂ : Option String, ∀ x : String,
        (o₁.or o₂).getD x = o₁.getD (o₂.getD x) := by
      intro o₁ o₂ x
      cases o₁ <;> simp [Option.or]
    rw [List.reverse_cons, List.findSome?_append, hor]
    have hm : [m].findSome? auxDigest? = auxDigest? m := by
      cases h : auxDigest? m <;> simp [List.findSome?, h]
    rw [hm]
    cases ha : m.aux with
    | none =>
      have he := hclean m (List.mem_cons_self _ _)
      simp [displayStream, ha, he, ih _ hrest, auxDigest?]
    | some a' =>
      cases a' with
      | undecodable =>
        simp [displayStream, ha, extractDigestFromAux, ih _ hrest, auxDigest?]
      | digestField d =>
        simp [displayStream, ha, extractDigestFromAux, ih _ hrest, auxDigest?]

/-! ## Claim theorems for the filtering pass -/

/-- C6: for every input sequence of decodable status records and every
suppress-set of substrings, the filter forwards exactly those records
whose status text contains none of the suppressed substrings, in their
original relative order; in particular the four records with statuses
"keep me", "xyz skip1 abc", "also keep me!", "\tskip2" under the
suppress-set ("skip1", "skip2") forward only the two "keep" records, in
that order. -/
theorem claim_c6_filter_forwards_kept :
    (∀ (msgs : List Msg) (skips : List String),
      (scanStatuses (msgs.map Except.ok) skips).2 = msgs.filter (statusKept skips)) ∧
    (scanStatuses
        [Except.ok { status := "keep me" },
         Except.ok { status := "xyz skip1 abc" },
         Except.ok { status := "also keep me!" },
         Except.ok { status := "\tskip2" }]
        ["skip1", "skip2"]).2
      = [{ status := "keep me" }, { status := "also keep me!" }] := by
  constructor
  · intro msgs skips
    rw [scanStatuses_snd, decodablePrefix_map_ok]
  · decide

theorem b32EncodeToString_chars (bytes : List Nat) :
    ∀ c ∈ (b32EncodeToString bytes).data, c ∈ b32Alphabet := by
  intro c hc
  have hdata : (b32EncodeToString bytes).data
      = (chunk5 (bytes.flatMap byteToBits)).map
          (fun g => b32Alphabet.getD (bitsToNat g) '0') := rfl
  rw [hdata] at hc
  obtain ⟨g, _, rfl⟩ := List.mem_map.mp hc
  exact getD_mem _ (by decide)

/-- C7: the unique tag generator, on the injected Unix-nanosecond
timestamp 1593224653252075123 and the deterministic byte source
"abcdefgh", produces "1593224653252075123-c5h66p35cpjmg"; in general a
tag from any 8 random bytes is the decimal timestamp, a hyphen, and 13
characters over the unpadded base-32 alphabet
"0123456789abcdefghijklmnopqrstuv". -/
theorem claim_c7_unique_tag :
    generateUniqueTag 1593224653252075123 [97, 98, 99, 100, 101, 102, 103, 104]
        = "1593224653252075123-c5h66p35cpjmg" ∧
    ∀ (unixNano : Int) (bytes : List Nat), bytes.length = 8 →
      generateUniqueTag unixNano bytes
          = toString unixNano ++ "-" ++ b32EncodeToString bytes ∧
      (b32EncodeToString bytes).length = 13 ∧
      ∀ c ∈ (b32EncodeToString bytes).data, c ∈ b32Alphabet := by
  refine ⟨by decide, ?_⟩
  intro t bytes hlen
  refine ⟨?_, ?_, b32EncodeToString_chars bytes⟩
  · unfold generateUniqueTag randomName13
    rw [List.take_of_length_le (le_of_eq hlen)]
  · exact
      match bytes, hlen with
      | [_, _, _, _, _, _, _, _], _ => rfl

/-- C7 witness: the general part of the claim instantiated at the
byte sequence 1..8 and timestamp 7. -/
theorem claim_c7_unique_tag_witness :
    generateUniqueTag 7 [1, 2, 3, 4, 5, 6, 7, 8]
        = toString (7 : Int) ++ "-" ++ b32EncodeToString [1, 2, 3, 4, 5, 6, 7, 8] ∧
    (b32EncodeToString [1, 2, 3, 4, 5, 6, 7, 8]).length = 13 ∧
    ∀ c ∈ (b32EncodeToString [1, 2, 3, 4, 5, 6, 7, 8]).data, c ∈ b32Alphabet :=
  claim_c7_unique_tag.2 7 [1, 2, 3, 4, 5, 6, 7, 8] (by decide)

def demoDigestA : String :=
  "sha256:aaaaaaaaaaaaaaaaaaaaaaaaaaaaaaaaaaaaaaaaaaaaaaaaaaaaaaaaaaaaaaaa"

def demoDigestB : String :=
  "sha256:bbbbbbbbbbbbbbbbbbbbbbbbbbbbbbbbbbbbbbbbbbbbbbbbbbbbbbbbbbbbbbbb"

def demoMsgFirst : Msg :=
  { status := "latest: digest: " ++ demoDigestA ++ " size: 1819" }

def demoMsgSecond : Msg :=
  { status := "latest: digest: " ++ demoDigestB ++ " size: 1819" }

/-- C2 counterexample: in the two-record stream whose first record
carries digest A and whose second carries digest B, the first digest
found by either path is A, yet the side output reports B: a later
occurrence does change the reported value, so the reported digest is
not the first one found. -/
theorem claim_c2_counterexample :
    findDigest demoMsgFirst.status = some demoDigestA ∧
    (scanStatuses [Except.ok demoMsgFirst, Except.ok demoMsgSecond] []).1 = demoDigestB ∧
    demoDigestB ≠ demoDigestA := by
  decide

/-- C2 amended: the digest value reported on the status-text side
output is the last digest found in the pass by the inline pattern, each
match overwriting the previous value; likewise the auxiliary-path
register reports the digest of the last forwarded record carrying a
decodable auxiliary payload. -/
theorem claim_c2_amended :
    (∀ (stream : List RawRecord) (skips : List String),
      (scanStatuses stream skips).1
          = (((decodablePrefix stream).reverse.findSome? statusDigest?).getD "")) ∧
    (∀ (msgs : List Msg) (a : String), (∀ m ∈ msgs, m.errorMsg = none) →
      displayStream a msgs = .ok ((msgs.reverse.findSome? auxDigest?).getD a)) :=
  ⟨scanStatuses_fst, displayStream_ok⟩

/-- C2 amended witness: the auxiliary-path part instantiated at a
one-record stream carrying an aux digest. -/
theorem claim_c2_amended_witness :
    displayStream "" [({ status := "x", aux := some (.digestField "sha256:z") } : Msg)]
        = .ok "sha256:z" :=
  claim_c2_amended.2 [{ status := "x", aux := some (.digestField "sha256:z") }] ""
    (by decide)

/-- C9: an undecodable record terminates the filtering pass at that
record: the scan of the stream equals the scan of its decodable prefix,
all records forwarded before the bad record are kept, and the consumer
of the forwarded sequence sees a clean end of stream, not an error. -/
theorem claim_c9_undecodable_terminates (xs : List Msg) (rest : List RawRecord)
    (skips : List String) (hclean : ∀ m ∈ xs, m.errorMsg = none) :
    scanStatuses (xs.map Except.ok ++ Except.error () :: rest) skips
        = scanStatuses (xs.map Except.ok) skips ∧
    ∃ d, displayStream ""
        (scanStatuses (xs.map Except.ok ++ Except.error () :: rest) skips).2 = .ok d := by
  have hpre : decodablePrefix (xs.map Except.ok ++ Except.error () :: rest) = xs := by
    rw [decodablePrefix_ok_append]
    simp [decodablePrefix]
  constructor
  · unfold scanStatuses
    rw [scanLoop_eq_foldl, scanLoop_eq_foldl, hpre, decodablePrefix_map_ok]
  · simp only [scanStatuses_snd, hpre]
    exact ⟨_, displayStream_ok _ "" fun m hm => hclean m (List.mem_of_mem_filter hm)⟩

/-- C9 witness: the claim instantiated at a one-record decodable
prefix followed by a decode failure and one further record. -/
theorem claim_c9_witness :
    scanStatuses
        [Except.ok ({ status := "a" } : Msg), Except.error (), Except.ok { status := "b" }] []
        = scanStatuses [Except.ok ({ status := "a" } : Msg)] [] ∧
    ∃ d, displayStream ""
        (scanStatuses
          [Except.ok ({ status := "a" } : Msg), Except.error (), Except.ok { status := "b" }]
          []).2 = .ok d :=
  claim_c9_undecodable_terminates [{ status := "a" }] [Except.ok { status := "b" }] []
    (by decide)

/-- C10: the digest check precedes the suppression check: a record
whose status text matches a suppressed substring is dropped from the
forwarded sequence yet still contributes its digest to the side
output. -/
theorem claim_c10_digest_before_skip (pre : List Msg) (m : Msg) (skips : List String)
    (d : String) (hd : findDigest m.status = some d)
    (hs : (skips.any fun skip => strContains m.status skip) = true) :
    (scanStatuses (pre.map Except.ok ++ [Except.ok m]) skips).1 = d ∧
    (scanStatuses (pre.map Except.ok ++ [Except.ok m]) skips).2
        = (scanStatuses (pre.map Except.ok) skips).2 := by
  have hpre : decodablePrefix (pre.map Except.ok ++ [Except.ok m]) = pre ++ [m] := by
    rw [decodablePrefix_ok_append]
    simp [decodablePrefix]
  constructor
  · rw [scanStatuses_fst, hpre, List.reverse_append]
    simp [List.findSome?, statusDigest?, hd]
  · rw [scanStatuses_snd, scanStatuses_snd, hpre, decodablePrefix_map_ok,
      List.filter_append]
    have hk : statusKept skips m = false := by
      simp [statusKept, hs]
    simp [List.filter_cons, hk]

/-- C10 witness: a single suppressed record carrying a digest. -/
theorem claim_c10_witness :
    (scanStatuses [Except.ok ({ status := "srv: digest: " ++ demoDigestA } : Msg)]
        ["srv"]).1 = demoDigestA ∧
    (scanStatuses [Except.ok ({ status := "srv: digest: " ++ demoDigestA } : Msg)]
        ["srv"]).2 = ([] : List Msg) := by
  have h := claim_c10_digest_before_skip [] { status := "srv: digest: " ++ demoDigestA }
    ["srv"] demoDigestA (by decide) (by decide)
  exact h

/-! ## Claim theorems for `DockerEngine.PushImage` -/

/-- C3: a push-call error whose text matches the platform-mismatch
pattern, or a structured stream error whose message matches it, makes
`PushImage` return a platform-mismatch error that wraps the underlying
error, is a distinct kind from the generic errors, and whose own
message names the fixed target platform linux/amd64. -/
theorem claim_c3_platform_mismatch (remote : RemoteImage) (emsg jemsg : String)
    (stream : List RawRecord)
    (h1 : platformErrorPatternMatches "linux" "amd64" emsg = true)
    (h2 : displayStream ""
        (scanStatuses stream [remote.authConfig.serverAddress, remote.tag]).2
        = .error jemsg)
    (h3 : platformErrorPatternMatches "linux" "amd64" jemsg = true) :
    enginePushImage (.error emsg) remote
        = .error (.platformMismatch "linux" "amd64" (.fromCall emsg)) ∧
    enginePushImage (.ok stream) remote
        = .error (.platformMismatch "linux" "amd64" (.fromStream jemsg)) ∧
    (∀ cause msg, EnginePushErr.platformMismatch "linux" "amd64" cause ≠
          EnginePushErr.callFailure msg ∧
        EnginePushErr.platformMismatch "linux" "amd64" cause ≠
          EnginePushErr.jsonError msg) ∧
    platformErrorMessage "linux" "amd64" = "image does not provide linux/amd64 platform" := by
  refine ⟨?_, ?_, ?_, rfl⟩
  · simp [enginePushImage, h1]
  · simp [enginePushImage, h2, h3]
  · intro cause msg
    exact ⟨by simp, by simp⟩

def demoRemote : RemoteImage :=
  { authConfig := { username := "u", password := "p", serverAddress := "srv" }, tag := "tg" }

def demoPlatformCallErr : String :=
  "image with reference r was found but does not provide the specified platform (linux/amd64)"

def demoPlatformStreamErr : String :=
  "image does not match the specified platform (linux/amd64)"

/-- C3 witness: the claim instantiated at a concrete call error and a
one-record stream surfacing a structured error. -/
theorem claim_c3_witness :
    enginePushImage (.error demoPlatformCallErr) demoRemote
        = .error (.platformMismatch "linux" "amd64" (.fromCall demoPlatformCallErr)) ∧
    enginePushImage
        (.ok [Except.ok { status := "x", errorMsg := some demoPlatformStreamErr }]) demoRemote
        = .error (.platformMismatch "linux" "amd64" (.fromStream demoPlatformStreamErr)) ∧
    (∀ cause msg, EnginePushErr.platformMismatch "linux" "amd64" cause ≠
          EnginePushErr.callFailure msg ∧
        EnginePushErr.platformMismatch "linux" "amd64" cause ≠
          EnginePushErr.jsonError msg) ∧
    platformErrorMessage "linux" "amd64" = "image does not provide linux/amd64 platform" :=
  claim_c3_platform_mismatch demoRemote demoPlatformCallErr demoPlatformStreamErr
    [Except.ok { status := "x", errorMsg := some demoPlatformStreamErr }]
    (by decide) rfl (by decide)

/-- C4: when both extraction paths yield a non-empty digest in the same
pass, the digest returned by the push step is the one extracted via the
inline status-text pattern. -/
theorem claim_c4_status_path_precedence (stream : List RawRecord) (remote : RemoteImage)
    (da : String)
    (h2 : displayStream ""
        (scanStatuses stream [remote.authConfig.serverAddress, remote.tag]).2 = .ok da)
    (h3 : (scanStatuses stream [remote.authConfig.serverAddress, remote.tag]).1 ≠ "")
    (_h4 : da ≠ "") :
    enginePushImage (.ok stream) remote
        = .ok (scanStatuses stream [remote.authConfig.serverAddress, remote.tag]).1 := by
  simp [enginePushImage, h2, h3]

def demoBothPathsStream : List RawRecord :=
  [Except.ok { status := "x: digest: " ++ demoDigestA ++ " size: 1" },
   Except.ok { status := "y", aux := some (.digestField "sha256:zz") }]

/-- C4 witness: a stream on which the status path finds digest A and
the auxiliary path a different non-empty digest. -/
theorem claim_c4_witness :
    enginePushImage (.ok demoBothPathsStream) demoRemote
        = .ok (scanStatuses demoBothPathsStream
            [demoRemote.authConfig.serverAddress, demoRemote.tag]).1 :=
  claim_c4_status_path_precedence demoBothPathsStream demoRemote "sha256:zz"
    rfl (by decide) (by decide)

/-! ## Claim theorems for the push orchestration -/

/-- C1: whenever the tag step succeeded, the untag capability is called
exactly once, with exactly the reference that was passed to the tag
capability, regardless of how the later steps end; and the value
returned by `PushImage` does not depend on the untag capability at
all. -/
theorem claim_c1_untag_exactly_once {E : Type} (inp : PushImageInput) (t : Int)
    (rng : List Nat) (caps : Caps E) (login : RegistryLogin)
    (h1 : caps.createLogin = .ok login)
    (h2 : caps.tagImage inp.image (remoteRefFor login t rng) = .ok ()) :
    ((pushImage inp t rng caps).2.countP CallEvent.isUntag = 1) ∧
    (CallEvent.untagImage (remoteRefFor login t rng) ∈ (pushImage inp t rng caps).2) ∧
    ∀ u : String → Except E Unit,
      (pushImage inp t rng { caps with untagImage := u }).1
          = (pushImage inp t rng caps).1 := by
  have h2' : caps.tagImage inp.image
      (RemoteImage.ref
        { authConfig := getServiceRegistryAuth login, tag := generateUniqueTag t rng })
      = Except.ok () := h2
  refine ⟨?_, ?_, ?_⟩
  · simp only [pushImage, h1, h2']
    rcases hp : caps.pushImage
        { authConfig := getServiceRegistryAuth login, tag := generateUniqueTag t rng }
      with e | dg
    · simp [List.countP_cons, CallEvent.isUntag]
    · rcases hr : caps.registerImage inp.service inp.label dg with e | r <;>
        simp [hr, List.countP_cons, CallEvent.isUntag]
  · simp only [pushImage, remoteRefFor, h1, h2']
    simp [List.mem_append]
  · intro u
    simp only [pushImage, h1, h2']

/-- C8: when the tag capability fails, `PushImage` returns that very
error and the only capability calls issued are the login and the
failing tag: push, untag and register are never called. -/
theorem claim_c8_tag_failure_stops {E : Type} (inp : PushImageInput) (t : Int)
    (rng : List Nat) (caps : Caps E) (login : RegistryLogin) (e : E)
    (h1 : caps.createLogin = .ok login)
    (h2 : caps.tagImage inp.image (remoteRefFor login t rng) = .error e) :
    (pushImage inp t rng caps).1 = .error e ∧
    (pushImage inp t rng caps).2
        = [CallEvent.createLogin, CallEvent.tagImage inp.image (remoteRefFor login t rng)] := by
  have h2' : caps.tagImage inp.image
      (RemoteImage.ref
        { authConfig := getServiceRegistryAuth login, tag := generateUniqueTag t rng })
      = Except.error e := h2
  constructor <;> simp only [pushImage, remoteRefFor, h1, h2']

/-- C5: when the push capability is the engine push over a stream from
which neither extraction path yields a digest, the orchestration fails
with the missing-digest error and the register capability is never
called. -/
theorem claim_c5_missing_digest (inp : PushImageInput) (t : Int) (rng : List Nat)
    (caps : Caps EnginePushErr) (login : RegistryLogin) (stream : List RawRecord)
    (h1 : caps.createLogin = .ok login)
    (h2 : caps.tagImage inp.image (remoteRefFor login t rng) = .ok ())
    (hpush : ∀ ri, caps.pushImage ri = enginePushImage (.ok stream) ri)
    (hds : (scanStatuses stream
        [(getServiceRegistryAuth login).serverAddress, generateUniqueTag t rng]).1 = "")
    (hda : displayStream "" (scanStatuses stream
        [(getServiceRegistryAuth login).serverAddress, generateUniqueTag t rng]).2
        = Except.ok "") :
    (pushImage inp t rng caps).1 = .error EnginePushErr.missingDigest ∧
    (pushImage inp t rng caps).2.countP CallEvent.isRegister = 0 := by
  have h2' : caps.tagImage inp.image
      (RemoteImage.ref
        { authConfig := getServiceRegistryAuth login, tag := generateUniqueTag t rng })
      = Except.ok () := h2
  have hres : caps.pushImage
      { authConfig := getServiceRegistryAuth login, tag := generateUniqueTag t rng }
      = Except.error EnginePushErr.missingDigest := by
    rw [hpush]
    simp only [enginePushImage]
    rw [hda]
    simp [hds]
  constructor <;>
    simp [pushImage, h1, h2', hres, List.countP_cons, CallEvent.isRegister]

/-! ## Concrete capability sets for the orchestration witnesses -/

def demoInput : PushImageInput :=
  { service := "doge", image := "nginx:latest", label := "www" }

def demoLogin : RegistryLogin :=
  { username := "gollum", password := "precious", registry := "registry.test" }

def demoRng : List Nat := [1, 2, 3, 4, 5, 6, 7, 8]

def demoCaps : Caps String :=
  { createLogin := .ok demoLogin
    tagImage := fun _ _ => .ok ()
    untagImage := fun _ => .ok ()
    pushImage := fun _ => .ok demoDigestA
    registerImage := fun s l d => .ok { digest := d, image := ":" ++ s ++ "." ++ l ++ ".1" } }

def demoFailTagCaps : Caps String :=
  { demoCaps with tagImage := fun _ _ => .error "failed: tag" }

def demoEngineCaps : Caps EnginePushErr :=
  { createLogin := .ok demoLogin
    tagImage := fun _ _ => .ok ()
    untagImage := fun _ => .ok ()
    pushImage := fun ri => enginePushImage (.ok []) ri
    registerImage := fun _ _ d => .ok { digest := d, image := "x" } }

/-- C1 witness: a fully successful capability set, with the untag
independence instantiated at a failing untag capability. -/
theorem claim_c1_witness :
    ((pushImage demoInput 5 demoRng demoCaps).2.countP CallEvent.isUntag = 1) ∧
    (CallEvent.untagImage (remoteRefFor demoLogin 5 demoRng)
        ∈ (pushImage demoInput 5 demoRng demoCaps).2) ∧
    (pushImage demoInput 5 demoRng
        { demoCaps with untagImage := fun _ => .error "failed: untag" }).1
      = (pushImage demoInput 5 demoRng demoCaps).1 := by
  have h := claim_c1_untag_exactly_once demoInput 5 demoRng demoCaps demoLogin rfl rfl
  exact ⟨h.1, h.2.1, h.2.2 (fun _ => .error "failed: untag")⟩

/-- C8 witness: a capability set whose tag capability fails. -/
theorem claim_c8_witness :
    (pushImage demoInput 5 demoRng demoFailTagCaps).1 = .error "failed: tag" ∧
    (pushImage demoInput 5 demoRng demoFailTagCaps).2
        = [CallEvent.createLogin,
           CallEvent.tagImage demoInput.image (remoteRefFor demoLogin 5 demoRng)] :=
  claim_c8_tag_failure_stops demoInput 5 demoRng demoFailTagCaps demoLogin "failed: tag"
    rfl rfl

/-- C5 witness: the engine push over an empty stream yields no digest
from either path, so the orchestration fails with the missing-digest
error and register is never called. -/
theorem claim_c5_witness :
    (pushImage demoInput 5 demoRng demoEngineCaps).1
        = .error EnginePushErr.missingDigest ∧
    (pushImage demoInput 5 demoRng demoEngineCaps).2.countP CallEvent.isRegister = 0 :=
  claim_c5_missing_digest demoInput 5 demoRng demoEngineCaps demoLogin [] rfl rfl
    (fun _ => rfl) rfl rfl

end Lightsailctl
